import Mathlib

/-!
# serow: include/serow/IMUinEKF.h

A shallow embedding of the inline members of class IMUinEKF: the so(3) helpers
skew and vec, the Euler angle extraction getEulerAngles, and the
initialisation setters, together with the state container
(constructState / seperateState) of which the header only has the
declarations.

Eigen fixed-size matrices are functions on finite index types (the Matrix type
of Mathlib), Eigen column vectors are functions on Fin n.  The scalar type
(double in the source) is a parameter α of every definition, so each
definition can be run on ℤ or ℚ; the theorems that need arithmetic are stated
for α = ℝ, the theorems about pure copying for every α.
-/

namespace Serow

/-! ## Eigen fixed-size types and accessors -/

/-- Eigen Vector3d. -/
abbrev Vector3d (α : Type) := Fin 3 → α

/-- Eigen Matrix3d. -/
abbrev Matrix3d (α : Type) := Matrix (Fin 3) (Fin 3) α

/-- Eigen coefficient write M(i, j) = x. -/
def setCoeff {m n : ℕ} {α : Type} (M : Matrix (Fin m) (Fin n) α) (i : Fin m) (j : Fin n)
    (x : α) : Matrix (Fin m) (Fin n) α :=
  fun a b => if a = i ∧ b = j then x else M a b

/-- Eigen coefficient write v(i) = x on a column vector. -/
def setElem {n : ℕ} {α : Type} (v : Fin n → α) (i : Fin n) (x : α) : Fin n → α :=
  fun a => if a = i then x else v a

/-- Eigen read th.segment<3>(k) of a 6-vector; k ranges over 0..3 so the segment
is in bounds. -/
def segment3 {α : Type} (th : Fin 6 → α) (k : Fin 4) : Vector3d α :=
  fun i => th ⟨k.val + i.val, by omega⟩

/-- Eigen write th.segment<3>(k) = v on a 6-vector. -/
def setSegment3 {α : Type} (th : Fin 6 → α) (k : Fin 4) (v : Vector3d α) : Fin 6 → α :=
  fun a => if h : k.val ≤ a.val ∧ a.val < k.val + 3 then v ⟨a.val - k.val, by omega⟩ else th a

/-- Eigen read X.block<3,3>(r, c) of a 7×7 matrix. -/
def block33 {α : Type} (X : Matrix (Fin 7) (Fin 7) α) (r c : Fin 5) : Matrix3d α :=
  fun i j => X ⟨r.val + i.val, by omega⟩ ⟨c.val + j.val, by omega⟩

/-- Eigen write X.block<3,3>(r, c) = B on a 7×7 matrix. -/
def setBlock33 {α : Type} (X : Matrix (Fin 7) (Fin 7) α) (r c : Fin 5) (B : Matrix3d α) :
    Matrix (Fin 7) (Fin 7) α :=
  fun a b =>
    if h : (r.val ≤ a.val ∧ a.val < r.val + 3) ∧ (c.val ≤ b.val ∧ b.val < c.val + 3) then
      B ⟨a.val - r.val, by omega⟩ ⟨b.val - c.val, by omega⟩
    else X a b

/-- Eigen read X.block<3,1>(r, c) of a 7×7 matrix. -/
def block31 {α : Type} (X : Matrix (Fin 7) (Fin 7) α) (r : Fin 5) (c : Fin 7) : Vector3d α :=
  fun i => X ⟨r.val + i.val, by omega⟩ c

/-- Eigen write X.block<3,1>(r, c) = v on a 7×7 matrix. -/
def setBlock31 {α : Type} (X : Matrix (Fin 7) (Fin 7) α) (r : Fin 5) (c : Fin 7)
    (v : Vector3d α) : Matrix (Fin 7) (Fin 7) α :=
  fun a b =>
    if h : (r.val ≤ a.val ∧ a.val < r.val + 3) ∧ b = c then v ⟨a.val - r.val, by omega⟩
    else X a b

/-- The cmath functions called by getEulerAngles (atan2 takes y first, as in C). -/
structure CMath (α : Type) where
  atan2 : α → α → α
  sqrt : α → α

/-- The cmath functions as exact real functions: atan2 y x is the principal
argument of x + iy in (−π, π], with atan2 0 0 = 0, and sqrt is the real square
root. -/
noncomputable def realMath : CMath ℝ where
  atan2 := fun y x => Complex.arg ⟨x, y⟩
  sqrt := Real.sqrt

/-! ## The filter object -/

/-- The data members of class IMUinEKF, lines 62-99. Affine3d is held as its
4×4 matrix and Quaterniond as its four coefficients. -/
structure IMUinEKF (α : Type) where
  P : Matrix (Fin 21) (Fin 21) α
  Af : Matrix (Fin 21) (Fin 21) α
  Adj : Matrix (Fin 21) (Fin 21) α
  Phi : Matrix (Fin 21) (Fin 21) α
  If : Matrix (Fin 21) (Fin 21) α
  Qff : Matrix (Fin 21) (Fin 21) α
  Qf : Matrix (Fin 21) (Fin 21) α
  I : Matrix3d α
  w_ : Vector3d α
  a_ : Vector3d α
  w : Vector3d α
  a : Vector3d α
  X : Matrix (Fin 7) (Fin 7) α
  theta : Fin 6 → α
  firstrun : Bool
  g : Vector3d α
  pwb : Vector3d α
  vwb : Vector3d α
  dR : Vector3d α
  dL : Vector3d α
  bgyr : Vector3d α
  bacc : Vector3d α
  gyro : Vector3d α
  acc : Vector3d α
  angle : Vector3d α
  acc_qx : α
  acc_qy : α
  acc_qz : α
  gyr_qx : α
  gyr_qy : α
  gyr_qz : α
  gyrb_qx : α
  gyrb_qy : α
  gyrb_qz : α
  accb_qx : α
  accb_qy : α
  accb_qz : α
  foot_contactx : α
  foot_contacty : α
  foot_contactz : α
  foot_kinx : α
  foot_kiny : α
  foot_kinz : α
  gyroX : α
  gyroY : α
  gyroZ : α
  angleX : α
  angleY : α
  angleZ : α
  bias_gx : α
  bias_gy : α
  bias_gz : α
  bias_ax : α
  bias_ay : α
  bias_az : α
  ghat : α
  accX : α
  accY : α
  accZ : α
  velX : α
  velY : α
  velZ : α
  rX : α
  rY : α
  rZ : α
  Rwb : Matrix3d α
  Rib : Matrix3d α
  Qc : Matrix3d α
  R : Matrix3d α
  Tib : Matrix (Fin 4) (Fin 4) α
  qib : Fin 4 → α
  dt : α

namespace IMUinEKF

/-- IMUinEKF::setBodyPos, lines 136-139. -/
def setBodyPos {α : Type} (s : IMUinEKF α) (bp : Vector3d α) : IMUinEKF α :=
  { s with pwb := bp }

/-- IMUinEKF::setBodyOrientation, lines 142-144. -/
def setBodyOrientation {α : Type} (s : IMUinEKF α) (bR : Matrix3d α) : IMUinEKF α :=
  { s with Rwb := bR }

/-- IMUinEKF::setBodyVel, lines 146-149. -/
def setBodyVel {α : Type} (s : IMUinEKF α) (bv : Vector3d α) : IMUinEKF α :=
  { s with vwb := bv }

/-- IMUinEKF::skew, lines 163-174: the skew symmetric matrix of a 3-D vector. -/
def skew {α : Type} [Zero α] [Neg α] (v : Vector3d α) : Matrix3d α :=
  let res : Matrix3d α := 0
  let res := setCoeff res 0 1 (-v 2)
  let res := setCoeff res 0 2 (v 1)
  let res := setCoeff res 1 2 (-v 0)
  let res := setCoeff res 1 0 (v 2)
  let res := setCoeff res 2 0 (-v 1)
  let res := setCoeff res 2 1 (v 0)
  res

/-- IMUinEKF::vec, lines 175-182. -/
def vec {α : Type} [Zero α] (M : Matrix3d α) : Vector3d α :=
  let v : Vector3d α := 0
  let v := setElem v 0 (M 2 1)
  let v := setElem v 1 (M 0 2)
  let v := setElem v 2 (M 1 0)
  v

/-- IMUinEKF::getEulerAngles, lines 186-195. The cmath functions are the
parameter m; pow(x, 2) is the square x ^ 2. Only ring operations are applied
to the entries of Rt besides m.atan2 and m.sqrt. -/
def getEulerAngles {α : Type} [Ring α] (m : CMath α) (Rt : Matrix3d α) : Vector3d α :=
  let res : Vector3d α := 0
  let res := setElem res 0 (m.atan2 (Rt 2 1) (Rt 2 2))
  let res := setElem res 1 (m.atan2 (-Rt 2 0) (m.sqrt ((Rt 2 1) ^ 2 + (Rt 2 2) ^ 2)))
  let res := setElem res 2 (m.atan2 (Rt 1 0) (Rt 0 0))
  res

end IMUinEKF

/-! ## The state container

The header declares constructState and seperateState (lines 103-104); their
bodies are in a translation unit that is not part of the sources at hand. -/

/-- The named physical quantities that the state container packs and unpacks,
in the order of the parameter lists of constructState and seperateState. -/
structure StateParts (α : Type) where
  R_ : Matrix3d α
  v_ : Vector3d α
  p_ : Vector3d α
  dR_ : Vector3d α
  dL_ : Vector3d α
  bg_ : Vector3d α
  ba_ : Vector3d α

/-- Modelled from the spec: the body of IMUinEKF::constructState, declared at
line 103 and defined outside the header. The spec has it compose the group
element X from rotation, velocity, position and the two foot anchors by block
placement with homogeneous rows, and the bias vector θ from gyro bias then
accelerometer bias, by copying only. The blocks are: X starts as the 7×7
identity, R fills rows and columns 0..2, and v, p, dR, dL fill rows 0..2 of
columns 3, 4, 5, 6; θ is [bg; ba], the layout that setGyroBias and setAccBias
use. -/
def constructState {α : Type} [Zero α] [One α] (R_ : Matrix3d α)
    (v_ p_ dR_ dL_ bg_ ba_ : Vector3d α) : Matrix (Fin 7) (Fin 7) α × (Fin 6 → α) :=
  let X_ : Matrix (Fin 7) (Fin 7) α := 1
  let X_ := setBlock33 X_ 0 0 R_
  let X_ := setBlock31 X_ 0 3 v_
  let X_ := setBlock31 X_ 0 4 p_
  let X_ := setBlock31 X_ 0 5 dR_
  let X_ := setBlock31 X_ 0 6 dL_
  let theta_ : Fin 6 → α := 0
  let theta_ := setSegment3 theta_ 0 bg_
  let theta_ := setSegment3 theta_ 3 ba_
  (X_, theta_)

/-- Modelled from the spec: the body of IMUinEKF::seperateState, declared at
line 104 and defined outside the header. The spec has it decompose X and θ
into the named quantities by reading the current block values, the blocks
being those of constructState. -/
def seperateState {α : Type} (X_ : Matrix (Fin 7) (Fin 7) α) (theta_ : Fin 6 → α) :
    StateParts α where
  R_ := block33 X_ 0 0
  v_ := block31 X_ 0 3
  p_ := block31 X_ 0 4
  dR_ := block31 X_ 0 5
  dL_ := block31 X_ 0 6
  bg_ := segment3 theta_ 0
  ba_ := segment3 theta_ 3

/-! ## Reference objects named by the specification -/

/-- Elementary rotation about the x axis by the roll angle. -/
noncomputable def Rx (roll : ℝ) : Matrix3d ℝ :=
  !![1, 0, 0; 0, Real.cos roll, -Real.sin roll; 0, Real.sin roll, Real.cos roll]

/-- Elementary rotation about the y axis by the pitch angle. -/
noncomputable def Ry (pitch : ℝ) : Matrix3d ℝ :=
  !![Real.cos pitch, 0, Real.sin pitch; 0, 1, 0; -Real.sin pitch, 0, Real.cos pitch]

/-- Elementary rotation about the z axis by the yaw angle. -/
noncomputable def Rz (yaw : ℝ) : Matrix3d ℝ :=
  !![Real.cos yaw, -Real.sin yaw, 0; Real.sin yaw, Real.cos yaw, 0; 0, 0, 1]

/-- A filter object with the identity group element, identity orientation and
every other member zero: a concrete state to run the setters on. -/
def restState (α : Type) [Zero α] [One α] : IMUinEKF α where
  P := 0
  Af := 0
  Adj := 0
  Phi := 0
  If := 1
  Qff := 0
  Qf := 0
  I := 1
  w_ := 0
  a_ := 0
  w := 0
  a := 0
  X := 1
  theta := 0
  firstrun := true
  g := 0
  pwb := 0
  vwb := 0
  dR := 0
  dL := 0
  bgyr := 0
  bacc := 0
  gyro := 0
  acc := 0
  angle := 0
  acc_qx := 0
  acc_qy := 0
  acc_qz := 0
  gyr_qx := 0
  gyr_qy := 0
  gyr_qz := 0
  gyrb_qx := 0
  gyrb_qy := 0
  gyrb_qz := 0
  accb_qx := 0
  accb_qy := 0
  accb_qz := 0
  foot_contactx := 0
  foot_contacty := 0
  foot_contactz := 0
  foot_kinx := 0
  foot_kiny := 0
  foot_kinz := 0
  gyroX := 0
  gyroY := 0
  gyroZ := 0
  angleX := 0
  angleY := 0
  angleZ := 0
  bias_gx := 0
  bias_gy := 0
  bias_gz := 0
  bias_ax := 0
  bias_ay := 0
  bias_az := 0
  ghat := 0
  accX := 0
  accY := 0
  accZ := 0
  velX := 0
  velY := 0
  velZ := 0
  rX := 0
  rY := 0
  rZ := 0
  Rwb := 1
  Rib := 1
  Qc := 0
  R := 0
  Tib := 1
  qib := 0
  dt := 0

/-- A skew-symmetric sample matrix. -/
def skewSample : Matrix3d ℝ := !![0, -3, 2; 3, 0, -1; -2, 1, 0]

/-! ## Helper lemmas -/

open IMUinEKF

theorem getEulerAngles_eq (m : CMath ℝ) (Rt : Matrix3d ℝ) :
    getEulerAngles m Rt = ![m.atan2 (Rt 2 1) (Rt 2 2),
      m.atan2 (-Rt 2 0) (m.sqrt ((Rt 2 1) ^ 2 + (Rt 2 2) ^ 2)),
      m.atan2 (Rt 1 0) (Rt 0 0)] := by
  ext i
  fin_cases i <;> simp [getEulerAngles, setElem]

/-- The real atan2 is characterised by polar coordinates: it recovers the angle
of the point (r cos θ, r sin θ) for r > 0 and θ in (−π, π]. -/
theorem atan2_cos_sin {r θ : ℝ} (hr : 0 < r) (hθ : θ ∈ Set.Ioc (-Real.pi) Real.pi) :
    realMath.atan2 (r * Real.sin θ) (r * Real.cos θ) = θ := by
  have h : (⟨r * Real.cos θ, r * Real.sin θ⟩ : ℂ)
      = (r : ℂ) * (Complex.cos θ + Complex.sin θ * Complex.I) := by
    apply Complex.ext <;> simp [← Complex.ofReal_cos, ← Complex.ofReal_sin]
  show Complex.arg _ = θ
  rw [h]
  exact Complex.arg_mul_cos_add_sin_mul_I hr hθ

theorem atan2_mem_Ioc (y x : ℝ) : -Real.pi < realMath.atan2 y x ∧ realMath.atan2 y x ≤ Real.pi :=
  ⟨Complex.neg_pi_lt_arg _, Complex.arg_le_pi _⟩

theorem abs_atan2_le_of_nonneg (y : ℝ) {x : ℝ} (hx : 0 ≤ x) :
    |realMath.atan2 y x| ≤ Real.pi / 2 :=
  Complex.abs_arg_le_pi_div_two_iff.2 hx

theorem RzRyRx_entries (roll pitch yaw : ℝ) :
    (Rz yaw * Ry pitch * Rx roll) 2 0 = -Real.sin pitch ∧
    (Rz yaw * Ry pitch * Rx roll) 2 1 = Real.cos pitch * Real.sin roll ∧
    (Rz yaw * Ry pitch * Rx roll) 2 2 = Real.cos pitch * Real.cos roll ∧
    (Rz yaw * Ry pitch * Rx roll) 0 0 = Real.cos pitch * Real.cos yaw ∧
    (Rz yaw * Ry pitch * Rx roll) 1 0 = Real.cos pitch * Real.sin yaw := by
  refine ⟨?_, ?_, ?_, ?_, ?_⟩ <;>
    simp [Rz, Ry, Rx, Matrix.mul_apply, Fin.sum_univ_three, Matrix.vecHead, Matrix.vecTail] <;>
    ring

/-! ## Claims -/

/-- C1: vec is a left inverse of skew: for every 3-vector v, vec (skew v) = v,
component for component and with no precondition on v. Only copies are made, so
this holds for every scalar type. -/
theorem vec_skew_eq {α : Type} [Zero α] [Neg α] (v : Vector3d α) : vec (skew v) = v := by
  ext i
  fin_cases i <;> simp [vec, setElem, skew, setCoeff]

/-- C2: skew is a right inverse of vec on skew-symmetric input: for every real
3×3 matrix M with Mᵀ = −M, the diagonal of M is zero and skew (vec M) = M. -/
theorem skew_vec_eq_of_transpose_eq_neg (M : Matrix3d ℝ) (hM : M.transpose = -M) :
    (∀ i, M i i = 0) ∧ skew (vec M) = M := by
  have h : ∀ i j, M j i = -M i j := fun i j => by
    have := congrFun (congrFun hM i) j
    simpa using this
  have hd : ∀ i, M i i = 0 := fun i => by
    have := h i i
    linarith
  refine ⟨hd, ?_⟩
  ext i j
  fin_cases i <;> fin_cases j <;> simp [vec, setElem, skew, setCoeff, hd]
  · exact (h 1 0).symm
  · exact (h 2 1).symm
  · exact (h 0 2).symm

/-- The skew-symmetric sample matrix is rebuilt by skew from its vec. -/
theorem skew_vec_eq_of_transpose_eq_neg_witness :
    skewSample.transpose = -skewSample ∧ skew (vec skewSample) = skewSample :=
  have h : skewSample.transpose = -skewSample := by
    ext i j
    fin_cases i <;> fin_cases j <;> simp [skewSample]
  ⟨h, (skew_vec_eq_of_transpose_eq_neg skewSample h).2⟩

/-- C3: for every 3-vector v, skew v is skew-symmetric: its transpose is its
negation, and its three diagonal entries are 0. -/
theorem skew_transpose_eq_neg (v : Vector3d ℝ) :
    (skew v).transpose = -skew v ∧ skew v 0 0 = 0 ∧ skew v 1 1 = 0 ∧ skew v 2 2 = 0 := by
  refine ⟨?_, ?_, ?_, ?_⟩
  · ext i j
    fin_cases i <;> fin_cases j <;> simp [skew, setCoeff]
  all_goals simp [skew, setCoeff]

/-- C4: skew v is the cross-product matrix of v: over the reals, for all
3-vectors v and u, the matrix-vector product skew v · u is the cross product
v × u, and in particular skew v · v = 0. -/
theorem skew_mulVec_eq_cross (v u : Vector3d ℝ) :
    Matrix.mulVec (skew v) u = crossProduct v u ∧ Matrix.mulVec (skew v) v = 0 := by
  constructor
  · ext i
    fin_cases i <;>
      simp [skew, setCoeff, Matrix.mulVec, Matrix.dotProduct, Fin.sum_univ_three,
        cross_apply] <;>
      ring
  · ext i
    fin_cases i <;>
      simp [skew, setCoeff, Matrix.mulVec, Matrix.dotProduct, Fin.sum_univ_three] <;>
      ring

/-- C5: getEulerAngles inverts the roll/pitch/yaw (ZYX) composition: for every
roll and yaw in (−π, π] and every pitch in (−π/2, π/2),
getEulerAngles (Rz yaw · Ry pitch · Rx roll) = (roll, pitch, yaw), with atan2,
sqrt, sin and cos the exact real functions. -/
theorem getEulerAngles_RzRyRx (roll pitch yaw : ℝ)
    (hroll : roll ∈ Set.Ioc (-Real.pi) Real.pi)
    (hpitch : pitch ∈ Set.Ioo (-(Real.pi / 2)) (Real.pi / 2))
    (hyaw : yaw ∈ Set.Ioc (-Real.pi) Real.pi) :
    getEulerAngles realMath (Rz yaw * Ry pitch * Rx roll) = ![roll, pitch, yaw] := by
  obtain ⟨h20, h21, h22, h00, h10⟩ := RzRyRx_entries roll pitch yaw
  have hc : 0 < Real.cos pitch := Real.cos_pos_of_mem_Ioo hpitch
  have hp : pitch ∈ Set.Ioc (-Real.pi) Real.pi :=
    ⟨by have := hpitch.1; linarith [Real.pi_pos], by have := hpitch.2; linarith [Real.pi_pos]⟩
  have hs : realMath.sqrt ((Real.cos pitch * Real.sin roll) ^ 2
      + (Real.cos pitch * Real.cos roll) ^ 2) = Real.cos pitch := by
    have hsq : (Real.cos pitch * Real.sin roll) ^ 2 + (Real.cos pitch * Real.cos roll) ^ 2
        = Real.cos pitch ^ 2 := by
      have := Real.sin_sq_add_cos_sq roll
      linear_combination (Real.cos pitch ^ 2) * this
    show Real.sqrt _ = _
    rw [hsq, Real.sqrt_sq hc.le]
  rw [getEulerAngles_eq, h20, h21, h22, h00, h10, hs, neg_neg, atan2_cos_sin hc hroll,
    atan2_cos_sin hc hyaw]
  have hpit := atan2_cos_sin one_pos hp
  rw [one_mul, one_mul] at hpit
  rw [hpit]

/-- Roll −π/2, pitch π/4 and yaw π are recovered from their rotation matrix. -/
theorem getEulerAngles_RzRyRx_witness :
    getEulerAngles realMath (Rz Real.pi * Ry (Real.pi / 4) * Rx (-(Real.pi / 2)))
      = ![-(Real.pi / 2), Real.pi / 4, Real.pi] :=
  getEulerAngles_RzRyRx (-(Real.pi / 2)) (Real.pi / 4) Real.pi
    ⟨by linarith [Real.pi_pos], by linarith [Real.pi_pos]⟩
    ⟨by linarith [Real.pi_pos], by linarith [Real.pi_pos]⟩
    ⟨by linarith [Real.pi_pos], le_refl _⟩

/-- C10: for every real 3×3 matrix Rt whatsoever, the pitch component of
getEulerAngles Rt lies in [−π/2, π/2], because the second argument of its atan2
is a square root and hence non-negative; roll and yaw lie in [−π, π]. -/
theorem getEulerAngles_range (Rt : Matrix3d ℝ) :
    (0 ≤ realMath.sqrt ((Rt 2 1) ^ 2 + (Rt 2 2) ^ 2) ∧
      -(Real.pi / 2) ≤ getEulerAngles realMath Rt 1 ∧
      getEulerAngles realMath Rt 1 ≤ Real.pi / 2) ∧
    (-Real.pi ≤ getEulerAngles realMath Rt 0 ∧ getEulerAngles realMath Rt 0 ≤ Real.pi) ∧
    (-Real.pi ≤ getEulerAngles realMath Rt 2 ∧ getEulerAngles realMath Rt 2 ≤ Real.pi) := by
  have hs : 0 ≤ realMath.sqrt ((Rt 2 1) ^ 2 + (Rt 2 2) ^ 2) := Real.sqrt_nonneg _
  have hp := abs_le.1 (abs_atan2_le_of_nonneg (-Rt 2 0) hs)
  have hr := atan2_mem_Ioc (Rt 2 1) (Rt 2 2)
  have hy := atan2_mem_Ioc (Rt 1 0) (Rt 0 0)
  rw [getEulerAngles_eq]
  exact ⟨⟨hs, hp.1, hp.2⟩, ⟨hr.1.le, hr.2⟩, ⟨hy.1.le, hy.2⟩⟩

/-- C8, as the code has it: setBodyPos, setBodyOrientation and setBodyVel are
direct overrides of the named mean-state members, not of the group element:
after setBodyPos bp the member pwb equals bp, after setBodyOrientation bR the
member Rwb equals bR, after setBodyVel bv the member vwb equals bv, and each
of the three leaves X, θ and P as they were. -/
theorem setBody_overrides_named_members {α : Type} (s : IMUinEKF α) (bp bv : Vector3d α)
    (bR : Matrix3d α) :
    ((s.setBodyPos bp).pwb = bp ∧ (s.setBodyPos bp).X = s.X ∧
      (s.setBodyPos bp).theta = s.theta ∧ (s.setBodyPos bp).P = s.P) ∧
    ((s.setBodyOrientation bR).Rwb = bR ∧ (s.setBodyOrientation bR).X = s.X ∧
      (s.setBodyOrientation bR).theta = s.theta ∧ (s.setBodyOrientation bR).P = s.P) ∧
    ((s.setBodyVel bv).vwb = bv ∧ (s.setBodyVel bv).X = s.X ∧
      (s.setBodyVel bv).theta = s.theta ∧ (s.setBodyVel bv).P = s.P) :=
  ⟨⟨rfl, rfl, rfl, rfl⟩, ⟨rfl, rfl, rfl, rfl⟩, ⟨rfl, rfl, rfl, rfl⟩⟩

/-- C8 as stated fails: on the filter at rest (X the identity), after
setBodyPos (1, 2, 3) the position held in X is not (1, 2, 3), after
setBodyOrientation of the quarter turn about z the rotation block of X is not
that matrix, and after setBodyVel (1, 0, 0) the velocity held in X is not
(1, 0, 0): X still holds the identity rotation and zero position and velocity. -/
theorem setBody_leaves_X_stale :
    (seperateState ((restState ℝ).setBodyPos ![1, 2, 3]).X
        ((restState ℝ).setBodyPos ![1, 2, 3]).theta).p_ ≠ ![1, 2, 3] ∧
    (seperateState ((restState ℝ).setBodyOrientation !![0, -1, 0; 1, 0, 0; 0, 0, 1]).X
        ((restState ℝ).setBodyOrientation !![0, -1, 0; 1, 0, 0; 0, 0, 1]).theta).R_
      ≠ !![0, -1, 0; 1, 0, 0; 0, 0, 1] ∧
    (seperateState ((restState ℝ).setBodyVel ![1, 0, 0]).X
        ((restState ℝ).setBodyVel ![1, 0, 0]).theta).v_ ≠ ![1, 0, 0] := by
  refine ⟨?_, ?_, ?_⟩
  · intro h
    have h0 := congrFun h 0
    simp [seperateState, block31, setBodyPos, restState, Matrix.one_apply] at h0
  · intro h
    have h0 := congrFun (congrFun h 0) 0
    simp [seperateState, block33, setBodyOrientation, restState, Matrix.one_apply] at h0
  · intro h
    have h0 := congrFun h 0
    simp [seperateState, block31, setBodyVel, restState, Matrix.one_apply] at h0

/-- C9: round-trip law of the state container: for every matrix R (rotation or
not) and all 3-vectors v, p, dR, dL, bg, ba, packing them with constructState
and unpacking the resulting (X, θ) with seperateState returns exactly
(R, v, p, dR, dL, bg, ba). -/
theorem seperateState_constructState {α : Type} [Zero α] [One α] (R_ : Matrix3d α)
    (v_ p_ dR_ dL_ bg_ ba_ : Vector3d α) :
    seperateState (constructState R_ v_ p_ dR_ dL_ bg_ ba_).1
        (constructState R_ v_ p_ dR_ dL_ bg_ ba_).2
      = ⟨R_, v_, p_, dR_, dL_, bg_, ba_⟩ := by
  have hR : block33 (constructState R_ v_ p_ dR_ dL_ bg_ ba_).1 0 0 = R_ := by
    ext i j
    fin_cases i <;> fin_cases j <;> simp [constructState, block33, setBlock33, setBlock31]
  have hv : block31 (constructState R_ v_ p_ dR_ dL_ bg_ ba_).1 0 3 = v_ := by
    ext i
    fin_cases i <;> simp [constructState, block31, setBlock33, setBlock31]
  have hp : block31 (constructState R_ v_ p_ dR_ dL_ bg_ ba_).1 0 4 = p_ := by
    ext i
    fin_cases i <;> simp [constructState, block31, setBlock33, setBlock31]
  have hdR : block31 (constructState R_ v_ p_ dR_ dL_ bg_ ba_).1 0 5 = dR_ := by
    ext i
    fin_cases i <;> simp [constructState, block31, setBlock33, setBlock31]
  have hdL : block31 (constructState R_ v_ p_ dR_ dL_ bg_ ba_).1 0 6 = dL_ := by
    ext i
    fin_cases i <;> simp [constructState, block31, setBlock33, setBlock31]
  have hbg : segment3 (constructState R_ v_ p_ dR_ dL_ bg_ ba_).2 0 = bg_ := by
    ext i
    fin_cases i <;> rfl
  have hba : segment3 (constructState R_ v_ p_ dR_ dL_ bg_ ba_).2 3 = ba_ := by
    ext i
    fin_cases i <;> rfl
  simp only [seperateState, hR, hv, hp, hdR, hdL, hbg, hba]

end Serow
